import Mathlib

/-!
Shallow embedding of the GOTO register-machine interpreter (src/main.rs):
the instruction data model, the per-line parser (`Instruction.tryFrom`,
mirroring `impl TryFrom<String> for Instruction`), the whole-program parser
(`parse_commands`), and the fetch-decode-execute loop (`GotoProgramState.run`,
modelled as a single `step` function iterated with fuel by `runFuel`).

Machine integers: `RegisterIndex` (Rust `usize`) and memory cells (Rust `u64`)
are modelled as `Nat`.  Rust's debug-build panics on `u64` arithmetic overflow
and underflow, and the implicit `Vec` index panics, are modelled as the
explicit `fault` outcomes of `step`.
-/

/-- Rust `type RegisterIndex = usize`. -/
def RegisterIndex := Nat

/-- The `Instruction` enum of src/main.rs. -/
inductive Instruction where
  | Stop : Instruction
  | Inc (cell : Nat) : Instruction
  | Dec (cell : Nat) : Instruction
  | Goto (cell : Nat) : Instruction
  | GotoZ (condition_cell : Nat) (goto_cell : Nat) : Instruction
deriving DecidableEq, Repr

/-- Rust `value.split(" ")` on the character level: splits a char list at every
occurrence of `sep`, keeping empty chunks (Rust `str::split` semantics).
`acc` holds the current chunk's characters in reverse. -/
def splitOnCharAux (sep : Char) : List Char → List Char → List String
  | [], acc => [String.mk acc.reverse]
  | c :: cs, acc =>
    if c = sep then String.mk acc.reverse :: splitOnCharAux sep cs []
    else splitOnCharAux sep cs (c :: acc)

/-- Split a string at every occurrence of `sep` (Rust `str::split(sep)`). -/
def splitOnChar (sep : Char) (s : String) : List String :=
  splitOnCharAux sep s.data []

/-- Rust `value.split(" ").filter(|t| t.len() > 0)`: tokenize a line by splitting
on the space character and discarding empty tokens. -/
def tokenize (value : String) : List String :=
  (splitOnChar ' ' value).filter (fun t => t.length > 0)

/-- Rust `str::lines` drops one trailing carriage return from each line. -/
def stripCR (line : String) : String :=
  match line.data.getLast? with
  | some c => if c = '\r' then String.mk line.data.dropLast else line
  | none => line

/-- Rust `str::lines`: split on the newline character; a final trailing
newline produces no extra empty line; each line loses a trailing `'\r'`. -/
def rustLines (text : String) : List String :=
  let ls := splitOnChar '\n' text
  let ls := if ls.getLast? = some "" then ls.dropLast else ls
  ls.map stripCR

/-- Decimal value of an ASCII digit. -/
def digitVal (c : Char) : Option Nat :=
  if '0' ≤ c ∧ c ≤ '9' then some (c.toNat - '0'.toNat) else none

/-- Accumulate the decimal value of a digit string; `none` on a non-digit. -/
def parseDigitsAux : List Char → Nat → Option Nat
  | [], acc => some acc
  | c :: cs, acc =>
    match digitVal c with
    | some d => parseDigitsAux cs (acc * 10 + d)
    | none => none

/-- Value of a non-empty all-digit char list, `none` otherwise. -/
def parseDigits : List Char → Option Nat
  | [] => none
  | l => parseDigitsAux l 0

/-- Debug rendering of Rust's `ParseIntError \x7b kind: Empty \x7d`. -/
def parseIntErrorEmpty : String :=
  "ParseIntError \x7b kind: Empty \x7d"

/-- Debug rendering of Rust's `ParseIntError \x7b kind: InvalidDigit \x7d`. -/
def parseIntErrorInvalidDigit : String :=
  "ParseIntError \x7b kind: InvalidDigit \x7d"

/-- Debug rendering of Rust's `ParseIntError \x7b kind: PosOverflow \x7d`. -/
def parseIntErrorPosOverflow : String :=
  "ParseIntError \x7b kind: PosOverflow \x7d"

/-- Rust `fn parse_nr(text: &str) -> Result<RegisterIndex, String>`:
`text.parse::<usize>()` accepts an optional leading `'+'` followed by at
least one ASCII digit, rejects everything else, and overflows above
`usize::MAX = 2^64 - 1`; the error is formatted as
`"\x7b\x7d is not a number (reason: \x7b:?\x7d)"`. -/
def parse_nr_digits (text : String) : Option Nat → Except String Nat
  | none =>
    Except.error
      (text ++ " is not a number (reason: " ++ parseIntErrorInvalidDigit ++ ")")
  | some v =>
    if v < 2 ^ 64 then Except.ok v
    else
      Except.error
        (text ++ " is not a number (reason: " ++ parseIntErrorPosOverflow ++ ")")

/-- An empty string is `Empty`; otherwise drop one optional leading `'+'`
and judge the remaining digit string. -/
def parse_nr_core (text : String) : List Char → Except String Nat
  | [] =>
    Except.error (text ++ " is not a number (reason: " ++ parseIntErrorEmpty ++ ")")
  | c :: cs => parse_nr_digits text (parseDigits (if c = '+' then cs else c :: cs))

/-- Rust `fn parse_nr(text: &str)` applied to the string's characters. -/
def parse_nr (text : String) : Except String Nat :=
  parse_nr_core text text.data

/-- Interpretation of one line's token list (the body of
`Instruction::try_from` after tokenization); `value` is the whole line, used
only in error messages. -/
def interpTokens (tokens : List String) (value : String) : Except String Instruction :=
  match tokens with
  | [] => Except.error ("No tokens in: " ++ value)
  | instruction_token :: rest =>
    if instruction_token = "STOP" then
      Except.ok Instruction.Stop
    else if instruction_token = "INC" ∨ instruction_token = "DEC" ∨
        instruction_token = "GOTO" then
      match rest with
      | [t1] =>
        match parse_nr t1 with
        | Except.error e => Except.error e
        | Except.ok cell =>
          Except.ok
            (if instruction_token = "INC" then Instruction.Inc cell
             else if instruction_token = "DEC" then Instruction.Dec cell
             else Instruction.Goto cell)
      | _ => Except.error ("Not 2 tokens in: " ++ value)
    else if instruction_token = "GOTOZ" then
      match rest with
      | [t1, t2] =>
        match parse_nr t1 with
        | Except.error e => Except.error e
        | Except.ok condition_cell =>
          match parse_nr t2 with
          | Except.error e => Except.error e
          | Except.ok goto_cell =>
            Except.ok (Instruction.GotoZ condition_cell goto_cell)
      | _ => Except.error ("Not 3 tokens in: " ++ value)
    else
      Except.error ("Unknown token: " ++ instruction_token)

/-- Rust `Instruction::try_from(value: String)`: tokenize the line, then interpret
the tokens. -/
def Instruction.tryFrom (value : String) : Except String Instruction :=
  interpTokens (tokenize value) value

/-- The loop body of `parse_commands`, carrying the 0-based index `line_nr`
of the next line: a failing line aborts the whole parse with its error
wrapped as `"error in line N: ..."` (N 1-based). -/
def parse_commands_aux (line_nr : Nat) : List String → Except String (List Instruction)
  | [] => Except.ok []
  | line :: rest =>
    match Instruction.tryFrom line with
    | Except.error e =>
      Except.error ("error in line " ++ Nat.repr (line_nr + 1) ++ ": " ++ e)
    | Except.ok instruction =>
      match parse_commands_aux (line_nr + 1) rest with
      | Except.error e => Except.error e
      | Except.ok instructions => Except.ok (instruction :: instructions)

/-- Rust `fn parse_commands(text: String) -> Result<Vec<Instruction>, String>`. -/
def parse_commands (text : String) : Except String (List Instruction) :=
  parse_commands_aux 0 (rustLines text)

/-- The mutable part of `GotoProgramState` (the program itself is immutable
and passed separately to `step`). -/
structure GotoProgramState where
  program_counter : Nat
  memory : List Nat
deriving DecidableEq, Repr

/-- Outcome of one iteration of the `run` loop body. -/
inductive StepResult where
  | halted (s : GotoProgramState) : StepResult
  | running (s : GotoProgramState) : StepResult
  | fault : StepResult
deriving DecidableEq, Repr

/-- One iteration of the `loop` in `GotoProgramState::run`: fetch the
instruction at `program_counter` and execute it.  A `fault` models a Rust
panic: out-of-bounds instruction fetch, out-of-bounds memory access, `u64`
overflow on `Inc`, or `u64` underflow on `Dec` (`memory[cell] -= 1` with
`memory[cell] == 0`). -/
def step (program : List Instruction) (s : GotoProgramState) : StepResult :=
  match program[s.program_counter]? with
  | none => StepResult.fault
  | some Instruction.Stop => StepResult.halted s
  | some (Instruction.Inc cell) =>
    match s.memory[cell]? with
    | none => StepResult.fault
    | some v =>
      if v + 1 < 2 ^ 64 then
        StepResult.running ⟨s.program_counter + 1, s.memory.set cell (v + 1)⟩
      else StepResult.fault
  | some (Instruction.Dec cell) =>
    match s.memory[cell]? with
    | none => StepResult.fault
    | some v =>
      if v = 0 then StepResult.fault
      else StepResult.running ⟨s.program_counter + 1, s.memory.set cell (v - 1)⟩
  | some (Instruction.Goto cell) => StepResult.running ⟨cell, s.memory⟩
  | some (Instruction.GotoZ condition_cell goto_cell) =>
    match s.memory[condition_cell]? with
    | none => StepResult.fault
    | some v =>
      if v = 0 then StepResult.running ⟨goto_cell, s.memory⟩
      else StepResult.running ⟨s.program_counter + 1, s.memory⟩

/-- Outcome of iterating `step` a bounded number of times. -/
inductive RunOutcome where
  | halted (s : GotoProgramState) : RunOutcome
  | fault : RunOutcome
  | outOfFuel (s : GotoProgramState) : RunOutcome
deriving DecidableEq, Repr

/-- Rust `GotoProgramState::run` iterated with explicit fuel: the Rust loop has no
bound, so `outOfFuel` marks a run still going after `fuel` iterations. -/
def runFuel (program : List Instruction) : GotoProgramState → Nat → RunOutcome
  | s, 0 => RunOutcome.outOfFuel s
  | s, fuel + 1 =>
    match step program s with
    | StepResult.halted s' => RunOutcome.halted s'
    | StepResult.running s' => runFuel program s' fuel
    | StepResult.fault => RunOutcome.fault

/-- A fuel-bounded run that is not `outOfFuel` has finished for good. -/
def RunOutcome.finished : RunOutcome → Prop
  | RunOutcome.outOfFuel _ => False
  | _ => True

/-- The Rust `run` loop terminates from state `s`: some finite number of
iterations reaches a `Stop` or a fault. -/
def Terminates (program : List Instruction) (s : GotoProgramState) : Prop :=
  ∃ fuel, (runFuel program s fuel).finished

/-- C1: the program `"INC 0\nGOTOZ 0 3\nINC 0\nSTOP"` parses to
`[Inc 0, GotoZ 0 3, Inc 0, Stop]` and, run from memory `[0]`, proceeds
exactly as: step 1 sets memory to `[1]` and counter to 1; step 2 sees a
nonzero cell 0 so the counter moves to 2; step 3 sets memory to `[2]` and
counter to 3; step 4 halts at `Stop`; the final memory is `[2]`. -/
theorem c1_inc_gotoz_trace :
    parse_commands ("INC 0\nGOTOZ 0 3\nINC 0\nSTOP") =
      Except.ok [Instruction.Inc 0, Instruction.GotoZ 0 3,
        Instruction.Inc 0, Instruction.Stop] ∧
    step [Instruction.Inc 0, Instruction.GotoZ 0 3, Instruction.Inc 0,
        Instruction.Stop] ⟨0, [0]⟩ = StepResult.running ⟨1, [1]⟩ ∧
    step [Instruction.Inc 0, Instruction.GotoZ 0 3, Instruction.Inc 0,
        Instruction.Stop] ⟨1, [1]⟩ = StepResult.running ⟨2, [1]⟩ ∧
    step [Instruction.Inc 0, Instruction.GotoZ 0 3, Instruction.Inc 0,
        Instruction.Stop] ⟨2, [1]⟩ = StepResult.running ⟨3, [2]⟩ ∧
    step [Instruction.Inc 0, Instruction.GotoZ 0 3, Instruction.Inc 0,
        Instruction.Stop] ⟨3, [2]⟩ = StepResult.halted ⟨3, [2]⟩ ∧
    runFuel [Instruction.Inc 0, Instruction.GotoZ 0 3, Instruction.Inc 0,
        Instruction.Stop] ⟨0, [0]⟩ 4 = RunOutcome.halted ⟨3, [2]⟩ := by
  refine ⟨?_, by decide, by decide, by decide, by decide, by decide⟩
  rfl

/-- C8: whenever the program counter addresses a `Stop` instruction, the run
loop halts at that state: the step performs no transition and leaves memory
unchanged, any fueled run from there yields that state's memory as the
result; concretely, `"STOP"` run from memory `[0]` halts immediately with
memory `[0]`. -/
theorem c8_stop_halts (program : List Instruction) (s : GotoProgramState)
    (hfetch : program[s.program_counter]? = some Instruction.Stop) :
    step program s = StepResult.halted s ∧
    (∀ fuel, runFuel program s (fuel + 1) = RunOutcome.halted s) ∧
    parse_commands ("STOP") = Except.ok [Instruction.Stop] ∧
    runFuel [Instruction.Stop] ⟨0, [0]⟩ 1 = RunOutcome.halted ⟨0, [0]⟩ := by
  have hstep : step program s = StepResult.halted s := by
    unfold step
    rw [hfetch]
  refine ⟨hstep, ?_, by rfl, by decide⟩
  intro fuel
  simp [runFuel, hstep]

/-- Witness for C8 at the one-instruction program `[Stop]` and memory `[0]`. -/
theorem c8_stop_halts_witness :
    step [Instruction.Stop] ⟨0, [0]⟩ = StepResult.halted ⟨0, [0]⟩ :=
  (c8_stop_halts [Instruction.Stop] ⟨0, [0]⟩ (by decide)).1

/-- C2: a step at a `GotoZ condition_cell goto_cell` instruction (both
indices in bounds) jumps to `goto_cell` when `memory[condition_cell] = 0`,
advances the program counter by 1 for every nonzero value, and leaves memory
unchanged in both branches. -/
theorem c2_gotoz_step (program : List Instruction) (s : GotoProgramState)
    (condition_cell goto_cell : Nat)
    (hfetch : program[s.program_counter]? =
      some (Instruction.GotoZ condition_cell goto_cell))
    (hc : condition_cell < s.memory.length) (hg : goto_cell < program.length) :
    (s.memory[condition_cell]? = some 0 →
      step program s = StepResult.running ⟨goto_cell, s.memory⟩) ∧
    (∀ v, s.memory[condition_cell]? = some v → v ≠ 0 →
      step program s = StepResult.running ⟨s.program_counter + 1, s.memory⟩) := by
  constructor
  · intro hmem
    unfold step
    rw [hfetch]
    simp only [hmem]
    simp
  · intro v hmem hv
    unfold step
    rw [hfetch]
    simp only [hmem]
    simp [hv]

/-- Witness for C2: `GOTOZ 0 2` at a zero register jumps to address 2. -/
theorem c2_gotoz_step_witness :
    step [Instruction.GotoZ 0 2, Instruction.Inc 0, Instruction.Stop]
      ⟨0, [0]⟩ = StepResult.running ⟨2, [0]⟩ :=
  (c2_gotoz_step [Instruction.GotoZ 0 2, Instruction.Inc 0, Instruction.Stop]
    ⟨0, [0]⟩ 0 2 (by decide) (by decide) (by decide)).1 (by decide)

/-- C3: a step at `Dec cell` with `cell` in bounds and `memory[cell] ≥ 1`
decreases that cell by exactly 1 and advances the program counter by 1; the
subtraction is unchecked, and the underflow branch is reachable: at
`memory[cell] = 0` the step faults (`0u64 - 1` panics in a Rust debug
build). -/
theorem c3_dec_step (program : List Instruction) (s : GotoProgramState)
    (cell v : Nat)
    (hfetch : program[s.program_counter]? = some (Instruction.Dec cell))
    (hmem : s.memory[cell]? = some v) (hv : 1 ≤ v) :
    step program s =
      StepResult.running ⟨s.program_counter + 1, s.memory.set cell (v - 1)⟩ ∧
    step [Instruction.Dec 0] ⟨0, [0]⟩ = StepResult.fault := by
  refine ⟨?_, by decide⟩
  unfold step
  rw [hfetch]
  have hne : ¬ v = 0 := by omega
  simp only [hmem]
  simp [hne]

/-- Witness for C3: `DEC 0` at memory `[2]` steps to memory `[1]`. -/
theorem c3_dec_step_witness :
    step [Instruction.Dec 0, Instruction.Stop] ⟨0, [2]⟩ =
      StepResult.running ⟨0 + 1, List.set [2] 0 (2 - 1)⟩ :=
  (c3_dec_step [Instruction.Dec 0, Instruction.Stop] ⟨0, [2]⟩ 0 2
    (by decide) (by decide) (by decide)).1

/-- C10: a line whose first token (after discarding empty tokens) is `STOP`
parses to the `Stop` instruction no matter how many tokens follow; the extra
tokens are never examined. -/
theorem c10_stop_ignores_extra_tokens (line : String) (rest : List String)
    (h : tokenize line = "STOP" :: rest) :
    Instruction.tryFrom line = Except.ok Instruction.Stop := by
  unfold Instruction.tryFrom
  rw [h]
  simp [interpTokens]

/-- Witness for C10: `"STOP 1 2"` parses to `Stop`. -/
theorem c10_stop_ignores_extra_tokens_witness :
    Instruction.tryFrom ("STOP 1 2") = Except.ok Instruction.Stop :=
  c10_stop_ignores_extra_tokens ("STOP 1 2") ["1", "2"] (by decide)

/-- The one-instruction program `GOTO 0` steps from its initial state back to
the very same state. -/
theorem step_goto_self :
    step [Instruction.Goto 0] ⟨0, [0]⟩ = StepResult.running ⟨0, [0]⟩ := by
  decide

/-- Iterating `GOTO 0` never leaves the initial state, for any fuel. -/
theorem goto_self_out_of_fuel (fuel : Nat) :
    runFuel [Instruction.Goto 0] ⟨0, [0]⟩ fuel = RunOutcome.outOfFuel ⟨0, [0]⟩ := by
  induction fuel with
  | zero => rfl
  | succ n ih =>
    unfold runFuel
    rw [step_goto_self]
    exact ih

/-- The run of `GOTO 0` from memory `[0]` never reaches a `Stop` or a
fault. -/
theorem goto_self_diverges : ¬ Terminates [Instruction.Goto 0] ⟨0, [0]⟩ := by
  rintro ⟨fuel, hf⟩
  rw [goto_self_out_of_fuel fuel] at hf
  exact hf

/-- C9 is false as stated: not every parsed program terminates on every
initial memory.  The source `"GOTO 0"` parses successfully, and its run from
memory `[0]` neither halts nor faults after any number of loop
iterations. -/
theorem c9_termination_counterexample :
    ¬ (∀ (text : String) (instructions : List Instruction) (memory : List Nat),
        parse_commands text = Except.ok instructions →
        Terminates instructions ⟨0, memory⟩) := by
  intro h
  exact goto_self_diverges (h ("GOTO 0") [Instruction.Goto 0] [0] (by rfl))

/-- C9 (amended): a run that finishes, finishes either by halting at a
`Stop` or by a fault, but termination itself is not guaranteed: the parsed
program `"GOTO 0"` run from memory `[0]` loops forever. -/
theorem c9_run_termination_amended :
    (∀ (program : List Instruction) (s : GotoProgramState) (fuel : Nat),
        (runFuel program s fuel).finished →
        (∃ s', runFuel program s fuel = RunOutcome.halted s') ∨
          runFuel program s fuel = RunOutcome.fault) ∧
    parse_commands ("GOTO 0") = Except.ok [Instruction.Goto 0] ∧
    ¬ Terminates [Instruction.Goto 0] ⟨0, [0]⟩ := by
  refine ⟨?_, by rfl, goto_self_diverges⟩
  intro program s fuel h
  cases hr : runFuel program s fuel with
  | halted s' => exact Or.inl ⟨s', rfl⟩
  | fault => exact Or.inr rfl
  | outOfFuel s' =>
    rw [hr] at h
    exact h.elim

/-- A successful `parse_commands_aux` run parses exactly its input lines, in
order: the i-th instruction is the parse of the i-th remaining line. -/
theorem parse_commands_aux_ok (ls : List String) :
    ∀ (n : Nat) (instructions : List Instruction),
      parse_commands_aux n ls = Except.ok instructions →
      instructions.length = ls.length ∧
      ∀ i, i < ls.length →
        Instruction.tryFrom (ls.getD i "") =
          Except.ok (instructions.getD i Instruction.Stop) := by
  induction ls with
  | nil =>
    intro n instructions h
    unfold parse_commands_aux at h
    simp only [Except.ok.injEq] at h
    subst h
    exact ⟨rfl, fun i hi => absurd hi (by simp)⟩
  | cons line rest ih =>
    intro n instructions h
    unfold parse_commands_aux at h
    cases hline : Instruction.tryFrom line with
    | error e => rw [hline] at h; simp at h
    | ok instr =>
      rw [hline] at h
      cases hrest : parse_commands_aux (n + 1) rest with
      | error e => rw [hrest] at h; simp at h
      | ok instrs =>
        rw [hrest] at h
        simp only [Except.ok.injEq] at h
        subst h
        obtain ⟨hlen, hall⟩ := ih (n + 1) instrs hrest
        refine ⟨by simp [hlen], ?_⟩
        intro i hi
        cases i with
        | zero => simpa using hline
        | succ j =>
          have := hall j (by simpa using hi)
          simpa using this

/-- C4: the source `"INC 1\nDEC 2\nGOTO 3\nSTOP"` parses to exactly
`[Inc 1, Dec 2, Goto 3, Stop]`; and whenever parsing succeeds, the
instruction at index i is the parse of line i+1 — line order is preserved
exactly as instruction order. -/
theorem c4_parse_preserves_line_order (text : String)
    (instructions : List Instruction)
    (h : parse_commands text = Except.ok instructions) :
    parse_commands ("INC 1\nDEC 2\nGOTO 3\nSTOP") =
      Except.ok [Instruction.Inc 1, Instruction.Dec 2, Instruction.Goto 3,
        Instruction.Stop] ∧
    instructions.length = (rustLines text).length ∧
    ∀ i, i < (rustLines text).length →
      Instruction.tryFrom ((rustLines text).getD i "") =
        Except.ok (instructions.getD i Instruction.Stop) := by
  have := parse_commands_aux_ok (rustLines text) 0 instructions h
  exact ⟨by rfl, this.1, this.2⟩

/-- Witness for C4 at the one-line source `"STOP"`. -/
theorem c4_parse_preserves_line_order_witness :
    Instruction.tryFrom ((rustLines ("STOP")).getD 0 "") =
      Except.ok (([Instruction.Stop]).getD 0 Instruction.Stop) :=
  (c4_parse_preserves_line_order ("STOP") [Instruction.Stop] (by rfl)).2.2
    0 (by decide)

/-- Parsing via `parse_commands_aux` fails exactly when some input line fails to
parse. -/
theorem parse_commands_aux_error_iff (ls : List String) :
    ∀ n, (∃ e, parse_commands_aux n ls = Except.error e) ↔
      ∃ line ∈ ls, ∃ e, Instruction.tryFrom line = Except.error e := by
  induction ls with
  | nil => intro n; simp [parse_commands_aux]
  | cons line rest ih =>
    intro n
    unfold parse_commands_aux
    cases hline : Instruction.tryFrom line with
    | error e =>
      constructor
      · intro _
        exact ⟨line, List.mem_cons_self line rest, e, hline⟩
      · intro _
        exact ⟨_, rfl⟩
    | ok instr =>
      cases hrest : parse_commands_aux (n + 1) rest with
      | error e =>
        constructor
        · intro _
          obtain ⟨l, hl, he⟩ := (ih (n + 1)).mp ⟨e, hrest⟩
          exact ⟨l, List.mem_cons_of_mem line hl, he⟩
        · intro _
          exact ⟨e, rfl⟩
      | ok instrs =>
        constructor
        · rintro ⟨e2, he2⟩
          simp at he2
        · rintro ⟨l, hl, e2, he2⟩
          rcases List.mem_cons.mp hl with h | h
          · rw [h, hline] at he2
            simp at he2
          · obtain ⟨e3, he3⟩ := (ih (n + 1)).mpr ⟨l, h, e2, he2⟩
            rw [hrest] at he3
            simp at he3

/-- When every line before index `j` parses and line `j` fails with `e`,
`parse_commands_aux` aborts with exactly line `j`'s wrapped error. -/
theorem parse_commands_aux_first_error (ls : List String) :
    ∀ (n j : Nat) (e : String),
      (∀ i, i < j → ∃ ins, Instruction.tryFrom (ls.getD i "") = Except.ok ins) →
      j < ls.length →
      Instruction.tryFrom (ls.getD j "") = Except.error e →
      parse_commands_aux n ls =
        Except.error ("error in line " ++ Nat.repr (n + j + 1) ++ ": " ++ e) := by
  induction ls with
  | nil =>
    intro n j e _ hj _
    simp at hj
  | cons line rest ih =>
    intro n j e hok hj herr
    unfold parse_commands_aux
    cases j with
    | zero =>
      simp only [List.getD_cons_zero] at herr
      rw [herr]
    | succ k =>
      obtain ⟨instr, hinstr⟩ := hok 0 (Nat.succ_pos k)
      simp only [List.getD_cons_zero] at hinstr
      rw [hinstr]
      have hrec := ih (n + 1) k e
        (fun i hi => by simpa using hok (i + 1) (by omega))
        (by simpa using hj)
        (by simpa using herr)
      have harith : n + 1 + k + 1 = n + (k + 1) + 1 := by omega
      rw [harith] at hrec
      rw [hrec]

/-- C5: parsing fails iff some line fails to parse, and the returned error
is the first failing line's error wrapped as `"error in line N: <inner>"`
with N its 1-based number; failure returns no instruction list and later
lines contribute no errors. -/
theorem c5_fail_fast_first_error (text : String) :
    ((∃ e, parse_commands text = Except.error e) ↔
      ∃ line ∈ rustLines text, ∃ e, Instruction.tryFrom line = Except.error e) ∧
    ∀ (j : Nat) (e : String),
      (∀ i, i < j → ∃ ins,
        Instruction.tryFrom ((rustLines text).getD i "") = Except.ok ins) →
      j < (rustLines text).length →
      Instruction.tryFrom ((rustLines text).getD j "") = Except.error e →
      parse_commands text =
        Except.error ("error in line " ++ Nat.repr (j + 1) ++ ": " ++ e) := by
  constructor
  · exact parse_commands_aux_error_iff (rustLines text) 0
  · intro j e hok hj herr
    have h := parse_commands_aux_first_error (rustLines text) 0 j e hok hj herr
    rw [Nat.zero_add] at h
    exact h

/-- Witness for C5: the one-line source `"FOO"` fails with its line error
wrapped for line 1. -/
theorem c5_fail_fast_first_error_witness :
    parse_commands ("FOO") =
      Except.error ("error in line 1: Unknown token: FOO") :=
  (c5_fail_fast_first_error ("FOO")).2 0 ("Unknown token: FOO")
    (fun i hi => absurd hi (Nat.not_lt_zero i)) (by decide) (by rfl)

/-- Every `parse_nr` failure is reported as
`"<text> is not a number (reason: <detail>)"`. -/
theorem parse_nr_error_format (t e : String)
    (he : parse_nr t = Except.error e) :
    ∃ detail, parse_nr t =
      Except.error (t ++ " is not a number (reason: " ++ detail ++ ")") := by
  unfold parse_nr at he ⊢
  cases ht : t.data with
  | nil => exact ⟨parseIntErrorEmpty, rfl⟩
  | cons c cs =>
    rw [ht] at he
    simp only [parse_nr_core] at he ⊢
    cases hd : parseDigits (if c = '+' then cs else c :: cs) with
    | none => exact ⟨parseIntErrorInvalidDigit, rfl⟩
    | some v =>
      rw [hd] at he
      simp only [parse_nr_digits] at he
      by_cases hv : v < 2 ^ 64
      · rw [if_pos hv] at he
        simp at he
      · refine ⟨parseIntErrorPosOverflow, ?_⟩
        simp only [parse_nr_digits]
        rw [if_neg hv]

/-- C6: per-line errors are classified by first token: `INC`/`DEC`/`GOTO`
with a token count other than 2 give `"Not 2 tokens in: <line>"`; `GOTOZ`
with a count other than 3 gives `"Not 3 tokens in: <line>"`; any other first
token gives `"Unknown token: <token>"`; an empty token list gives
`"No tokens in: <line>"`; and a failing numeric sub-token reports
`"<text> is not a number (reason: <detail>)"`; concretely `"INC 1 2"` cites
`Not 2 tokens` and `"FOO 1"` cites `Unknown token: FOO`. -/
theorem c6_error_classification (line t0 : String) (rest : List String)
    (htok : tokenize line = t0 :: rest) :
    ((t0 = "INC" ∨ t0 = "DEC" ∨ t0 = "GOTO") → rest.length ≠ 1 →
      Instruction.tryFrom line = Except.error ("Not 2 tokens in: " ++ line)) ∧
    (t0 = "GOTOZ" → rest.length ≠ 2 →
      Instruction.tryFrom line = Except.error ("Not 3 tokens in: " ++ line)) ∧
    (t0 ≠ "STOP" → t0 ≠ "INC" → t0 ≠ "DEC" → t0 ≠ "GOTO" → t0 ≠ "GOTOZ" →
      Instruction.tryFrom line = Except.error ("Unknown token: " ++ t0)) ∧
    (∀ line2 : String, tokenize line2 = [] →
      Instruction.tryFrom line2 = Except.error ("No tokens in: " ++ line2)) ∧
    (∀ t e : String, parse_nr t = Except.error e →
      ∃ detail, parse_nr t =
        Except.error (t ++ " is not a number (reason: " ++ detail ++ ")")) ∧
    Instruction.tryFrom ("INC 1 2") = Except.error ("Not 2 tokens in: INC 1 2") ∧
    Instruction.tryFrom ("FOO 1") = Except.error ("Unknown token: FOO") := by
  refine ⟨?_, ?_, ?_, ?_, parse_nr_error_format, by rfl, by rfl⟩
  · intro hop hlen
    have h0 : ¬ t0 = "STOP" := by
      rcases hop with h | h | h <;> subst h <;> decide
    unfold Instruction.tryFrom
    rw [htok]
    simp only [interpTokens]
    rw [if_neg h0, if_pos hop]
    rcases rest with _ | ⟨a, rest2⟩
    · rfl
    · rcases rest2 with _ | ⟨b, rest3⟩
      · simp at hlen
      · rfl
  · intro hz hlen
    subst hz
    unfold Instruction.tryFrom
    rw [htok]
    simp only [interpTokens]
    rw [if_neg (by decide), if_neg (by decide), if_pos (by trivial)]
    rcases rest with _ | ⟨a, rest2⟩
    · rfl
    · rcases rest2 with _ | ⟨b, rest3⟩
      · rfl
      · rcases rest3 with _ | ⟨c, rest4⟩
        · simp at hlen
        · rfl
  · intro h1 h2 h3 h4 h5
    unfold Instruction.tryFrom
    rw [htok]
    simp only [interpTokens]
    rw [if_neg h1, if_neg (by simp [h2, h3, h4]), if_neg h5]
  · intro line2 h2
    unfold Instruction.tryFrom
    rw [h2]
    rfl

/-- Witness for C6: the line `"INC"` has one token, not 2. -/
theorem c6_error_classification_witness :
    Instruction.tryFrom ("INC") = Except.error ("Not 2 tokens in: INC") :=
  (c6_error_classification ("INC") ("INC") [] (by decide)).1
    (Or.inl rfl) (by decide)

/-- The canonical single-spaced form of a token list: tokens joined by one
space character. -/
def joinSpaced : List String → String
  | [] => ""
  | [t] => t
  | t :: ts => t ++ " " ++ joinSpaced ts

/-- Splitting a chunk free of the separator yields that one chunk. -/
theorem splitOnCharAux_no_sep (sep : Char) :
    ∀ (cs acc : List Char), sep ∉ cs →
      splitOnCharAux sep cs acc = [String.mk (acc.reverse ++ cs)] := by
  intro cs
  induction cs with
  | nil => intro acc _; simp [splitOnCharAux]
  | cons c cs ih =>
    intro acc h
    have hc : ¬ c = sep := by
      rintro rfl
      exact h (List.mem_cons_self c cs)
    unfold splitOnCharAux
    rw [if_neg hc, ih (c :: acc) (fun hm => h (List.mem_cons_of_mem c hm))]
    simp

/-- Splitting `cs ++ sep :: rest` with `sep ∉ cs` emits the chunk `cs` and
continues on `rest`. -/
theorem splitOnCharAux_append (sep : Char) :
    ∀ (cs rest acc : List Char), sep ∉ cs →
      splitOnCharAux sep (cs ++ sep :: rest) acc =
        String.mk (acc.reverse ++ cs) :: splitOnCharAux sep rest [] := by
  intro cs
  induction cs with
  | nil =>
    intro rest acc _
    rw [List.nil_append]
    conv_lhs => rw [splitOnCharAux]
    rw [if_pos rfl]
    simp
  | cons c cs ih =>
    intro rest acc h
    have hc : ¬ c = sep := by
      rintro rfl
      exact h (List.mem_cons_self c cs)
    simp only [List.cons_append]
    conv_lhs => rw [splitOnCharAux]
    rw [if_neg hc, ih rest (c :: acc) (fun hm => h (List.mem_cons_of_mem c hm))]
    simp

/-- Every chunk produced by the splitter is free of the separator. -/
theorem no_sep_of_mem_splitOnCharAux (sep : Char) :
    ∀ (cs acc : List Char) (t : String), sep ∉ acc →
      t ∈ splitOnCharAux sep cs acc → sep ∉ t.data := by
  intro cs
  induction cs with
  | nil =>
    intro acc t hacc ht
    simp [splitOnCharAux] at ht
    subst ht
    intro hm
    exact hacc (List.mem_reverse.mp hm)
  | cons c cs ih =>
    intro acc t hacc ht
    by_cases hc : c = sep
    · subst hc
      unfold splitOnCharAux at ht
      rw [if_pos rfl] at ht
      rcases List.mem_cons.mp ht with h | h
      · subst h
        intro hm
        exact hacc (List.mem_reverse.mp hm)
      · exact ih [] t (by simp) h
    · unfold splitOnCharAux at ht
      rw [if_neg hc] at ht
      refine ih (c :: acc) t ?_ ht
      intro hm
      rcases List.mem_cons.mp hm with h | h
      · exact hc h.symm
      · exact hacc h

/-- Structure eta: rebuilding a string from its characters is the string. -/
theorem string_mk_data (s : String) : String.mk s.data = s := rfl

/-- Every token of a tokenized line is nonempty and contains no space. -/
theorem tokenize_mem (line : String) :
    ∀ t ∈ tokenize line, t.data ≠ [] ∧ ' ' ∉ t.data := by
  intro t ht
  unfold tokenize at ht
  have hmem := List.mem_filter.mp ht
  constructor
  · have hlen : t.length > 0 := by simpa using hmem.2
    intro hdata
    have : t.data.length > 0 := hlen
    rw [hdata] at this
    simp at this
  · exact no_sep_of_mem_splitOnCharAux ' ' line.data [] t (by simp) hmem.1

/-- Tokenizing the canonical single-spaced join of nonempty space-free
tokens recovers exactly those tokens. -/
theorem tokenize_joinSpaced :
    ∀ ts : List String, (∀ t ∈ ts, t.data ≠ [] ∧ ' ' ∉ t.data) →
      tokenize (joinSpaced ts) = ts
  | [], _ => by rfl
  | [t], h => by
    have ht := h t (by simp)
    have hlen : t.length > 0 := by
      cases hd : t.data with
      | nil => exact absurd hd ht.1
      | cons c cs =>
        have : t.data.length > 0 := by rw [hd]; simp
        exact this
    unfold joinSpaced tokenize splitOnChar
    rw [splitOnCharAux_no_sep ' ' t.data [] ht.2]
    simp [string_mk_data, List.filter, hlen]
  | t :: t2 :: ts, h => by
    have ht := h t (by simp)
    have hrest : ∀ x ∈ t2 :: ts, x.data ≠ [] ∧ ' ' ∉ x.data :=
      fun x hx => h x (List.mem_cons_of_mem t hx)
    have ih := tokenize_joinSpaced (t2 :: ts) hrest
    have hlen : t.length > 0 := by
      cases hd : t.data with
      | nil => exact absurd hd ht.1
      | cons c cs =>
        have : t.data.length > 0 := by rw [hd]; simp
        exact this
    unfold tokenize splitOnChar at ih ⊢
    unfold joinSpaced
    have hdata : (t ++ " " ++ joinSpaced (t2 :: ts)).data
        = t.data ++ ' ' :: (joinSpaced (t2 :: ts)).data := by
      rw [String.data_append, String.data_append]
      simp
    rw [hdata, splitOnCharAux_append ' ' t.data _ [] ht.2]
    simp only [List.reverse_nil, List.nil_append, string_mk_data]
    rw [List.filter_cons_of_pos (by simpa using hlen)]
    rw [ih]

/-- The successful result of interpreting a token list does not depend on
the surrounding line text (only error messages embed it). -/
theorem interpTokens_ok_iff (tokens : List String) (v1 v2 : String)
    (ins : Instruction) :
    interpTokens tokens v1 = Except.ok ins ↔
      interpTokens tokens v2 = Except.ok ins := by
  cases tokens with
  | nil => simp [interpTokens]
  | cons t0 rest =>
    simp only [interpTokens]
    by_cases h0 : t0 = "STOP"
    · rw [if_pos h0, if_pos h0]
    · rw [if_neg h0, if_neg h0]
      by_cases h1 : t0 = "INC" ∨ t0 = "DEC" ∨ t0 = "GOTO"
      · rw [if_pos h1, if_pos h1]
        rcases rest with _ | ⟨a, rest2⟩
        · simp
        · rcases rest2 with _ | ⟨b, rest3⟩
          · cases hp : parse_nr a <;> simp [hp]
          · simp
      · rw [if_neg h1, if_neg h1]
        by_cases h2 : t0 = "GOTOZ"
        · rw [if_pos h2, if_pos h2]
          rcases rest with _ | ⟨a, rest2⟩
          · simp
          · rcases rest2 with _ | ⟨b, rest3⟩
            · simp
            · rcases rest3 with _ | ⟨c, rest4⟩
              · cases hp : parse_nr a
                · simp [hp]
                · cases hq : parse_nr b <;> simp [hp, hq]
              · simp
        · rw [if_neg h2, if_neg h2]

/-- An `Except` value is an error or a success. -/
theorem except_error_or_ok {ε α : Type} (x : Except ε α) :
    (∃ e, x = Except.error e) ∨ ∃ a, x = Except.ok a := by
  cases x
  · exact Or.inl ⟨_, rfl⟩
  · exact Or.inr ⟨_, rfl⟩

/-- C7: tokenization splits on the space character and discards empty
tokens, so a line parses exactly like its canonical single-spaced form
(tokens joined by one space): re-tokenizing the canonical form gives the
same tokens, success yields the same instruction, and failure coincides
with failure. -/
theorem c7_whitespace_roundtrip (line : String) :
    tokenize line = (splitOnChar ' ' line).filter (fun t => t.length > 0) ∧
    tokenize (joinSpaced (tokenize line)) = tokenize line ∧
    (∀ ins, Instruction.tryFrom line = Except.ok ins ↔
      Instruction.tryFrom (joinSpaced (tokenize line)) = Except.ok ins) ∧
    ((∃ e, Instruction.tryFrom line = Except.error e) ↔
      ∃ e, Instruction.tryFrom (joinSpaced (tokenize line)) = Except.error e) := by
  have hcanon : tokenize (joinSpaced (tokenize line)) = tokenize line :=
    tokenize_joinSpaced (tokenize line) (tokenize_mem line)
  have hok : ∀ ins, Instruction.tryFrom line = Except.ok ins ↔
      Instruction.tryFrom (joinSpaced (tokenize line)) = Except.ok ins := by
    intro ins
    unfold Instruction.tryFrom
    rw [hcanon]
    exact interpTokens_ok_iff (tokenize line) line (joinSpaced (tokenize line)) ins
  refine ⟨rfl, hcanon, hok, ?_, ?_⟩
  · rintro ⟨e, he⟩
    rcases except_error_or_ok
        (Instruction.tryFrom (joinSpaced (tokenize line))) with ⟨e2, h2⟩ | ⟨ins, h2⟩
    · exact ⟨e2, h2⟩
    · have hcontra := (hok ins).mpr h2
      rw [hcontra] at he
      simp at he
  · rintro ⟨e, he⟩
    rcases except_error_or_ok (Instruction.tryFrom line) with ⟨e2, h2⟩ | ⟨ins, h2⟩
    · exact ⟨e2, h2⟩
    · have hcontra := (hok ins).mp h2
      rw [hcontra] at he
      simp at he

/-- Witness for C7 at the line `" INC  1 "` (canonical form `"INC 1"`). -/
theorem c7_whitespace_roundtrip_witness :
    Instruction.tryFrom (" INC  1 ") = Except.ok (Instruction.Inc 1) ↔
      Instruction.tryFrom (joinSpaced (tokenize (" INC  1 "))) =
        Except.ok (Instruction.Inc 1) :=
  (c7_whitespace_roundtrip (" INC  1 ")).2.2.1 (Instruction.Inc 1)
